import Mathlib

/-!
Shallow embedding of the `dbxapi` folder-watcher core (`FolderWatcher` and its
reconciliation logic) and verification of the specification's claims about it.

The Go source keeps two maps (`EntriesById`, `EntriesByPath`) over live
`*FolderEntry` values, a cursor, and a run loop
(fetch-until-drained, then long-poll, repeat).  Go maps are modelled as
association lists with Go map semantics (`mapGet`, `mapSet`, `mapDel`);
channels are modelled by their buffered message count; the callback and the
exit channel are modelled as output traces.  Transport responses are supplied
as explicit oracle inputs, so every function is executable.
-/

set_option autoImplicit false

namespace Dbxapi

/-- The fields of a listing row that the core logic reads (`Tag`, `Id`,
`PathLower`); `name` and `rev` stand in for the opaque payload attributes. -/
structure FolderEntry where
  tag : String
  name : String
  id : String
  rev : String
  pathLower : String
deriving DecidableEq, Repr

/-- The transport client handle; its internals are collaborator concerns. -/
structure Client where
  accessToken : String
deriving DecidableEq, Repr

/-- Traversal mode: `DirModeShallow` or `DirModeRecursive` in the source. -/
inductive DirMode where
  | shallow
  | recursive
deriving DecidableEq, BEq, Repr

/-- Result of `files/list_folder` and `files/list_folder/continue`. -/
structure ListFolderResult where
  entries : List FolderEntry
  cursor : String
  hasMore : Bool
deriving DecidableEq, Repr

/-- Result of `files/list_folder/longpoll`. -/
structure LongPollResult where
  changes : Bool
  backoff : Nat
deriving DecidableEq, Repr

/-- The delta handed to the change callback (`FolderChanges` in the source). -/
structure FolderChanges where
  added : List String
  updated : List String
  removed : List String
deriving DecidableEq, Repr

/-- The requests the watcher can issue against the transport collaborator. -/
inductive Request where
  | listFolder (path : String) (recursive : Bool)
  | listFolderCont (cursor : String)
  | longpoll (cursor : String) (timeout : Nat)
deriving DecidableEq, Repr

/-- `ErrCanceled = Error("canceled")`: the cancellation sentinel. -/
def errCanceled : String := "canceled"

/-- Go map read: value for key `k`, or `none` (Go `nil`) when absent. -/
def mapGet {α : Type} (m : List (String × α)) (k : String) : Option α :=
  match m with
  | [] => none
  | (k1, v) :: rest => if k1 = k then some v else mapGet rest k

/-- Go map write: overwrite the binding for `k` if present, else add it. -/
def mapSet {α : Type} (m : List (String × α)) (k : String) (v : α) :
    List (String × α) :=
  match m with
  | [] => [(k, v)]
  | (k1, v1) :: rest =>
      if k1 = k then (k, v) :: rest else (k1, v1) :: mapSet rest k v

/-- Go map delete: remove the binding for `k`; no-op when absent. -/
def mapDel {α : Type} (m : List (String × α)) (k : String) :
    List (String × α) :=
  match m with
  | [] => []
  | (k1, v1) :: rest => if k1 = k then rest else (k1, v1) :: mapDel rest k

/-- The watcher state (`FolderWatcher`).  `cancelch` is the number of
messages buffered in the capacity-1 cancellation channel; `exitch` is
`some []` once the exit channel is allocated (`none` models a Go nil
channel); terminal deliveries are traced in the step outputs. -/
structure Watcher where
  hasMore : Bool
  canceled : Bool
  cancelch : Nat
  exitch : Option (List String)
  client : Client
  cursor : String
  path : String
  dirMode : DirMode
  entriesById : List (String × FolderEntry)
  entriesByPath : List (String × FolderEntry)
deriving DecidableEq, Repr

/-- `NewFolderWatcher(client, path, m)`: `nil` for a `nil` client, otherwise
a watcher with zero-valued cursor and flags, empty maps, an allocated exit
channel and an empty capacity-1 cancel channel. -/
def newFolderWatcher (client : Option Client) (path : String) (m : DirMode) :
    Option Watcher :=
  match client with
  | none => none
  | some c =>
      some { hasMore := false
             canceled := false
             cancelch := 0
             exitch := some []
             client := c
             cursor := ""
             path := path
             dirMode := m
             entriesById := []
             entriesByPath := [] }

/-- A send on the capacity-1 cancel channel holding `pending` messages:
`some` of the new count when the buffer has room (the send completes at
once), `none` when the buffer is full — the plain send `w.cancelch <- ...`
then blocks until a receiver takes a message. -/
def cancelSend (pending : Nat) : Option Nat :=
  if pending < 1 then some (pending + 1) else none

/-- `Cancel()`: a plain (unguarded) send on the cancel channel.  `none`
means the call blocks: with the run loop exited there is no receiver, so
the send never completes. -/
def cancel (w : Watcher) : Option Watcher :=
  match cancelSend w.cancelch with
  | some n => some { w with cancelch := n }
  | none => none

/-- `checkCanceled()`: returns the sticky flag, or performs a non-blocking
receive on the cancel channel (the `select` with `default`). -/
def checkCanceled (w : Watcher) : Bool × Watcher :=
  if w.canceled then (true, w)
  else if w.cancelch > 0 then
    (true, { w with canceled := true, cancelch := w.cancelch - 1 })
  else (false, w)

/-- Outcome of `checkResult`: proceed with the mutated watcher and the
response, or stop with the errors delivered on the exit channel. -/
inductive CheckOut where
  | proceed (w : Watcher) (r : ListFolderResult)
  | stop (w : Watcher) (exits : List String)
deriving DecidableEq, Repr

/-- `checkResult(r, err)`: a transport error is sent on the exit channel and
stops the pass; then cancellation is checked (sending `ErrCanceled`);
only then are the response cursor and has-more flag stored. -/
def checkResult (w : Watcher) (res : Except String ListFolderResult) :
    CheckOut :=
  match res with
  | .error e => .stop w [e]
  | .ok r =>
      let c := checkCanceled w
      if c.1 then .stop c.2 [errCanceled]
      else .proceed { c.2 with cursor := r.cursor, hasMore := r.hasMore } r

/-- Install an entry under both its id and its lower-cased path (the two
assignments at the end of the non-tombstone arm, also used by
`fetchInitial`). -/
def storeEnt (w : Watcher) (ent : FolderEntry) : Watcher :=
  { w with entriesById := mapSet w.entriesById ent.id ent
           entriesByPath := mapSet w.entriesByPath ent.pathLower ent }

/-- The `fetchInitial` loop body: store every row of the response. -/
def storeAll (w : Watcher) (entries : List FolderEntry) : Watcher :=
  entries.foldl storeEnt w

/-- Output of one `fetch` / `fetchInitial` call: the Go boolean result, the
new watcher, the errors delivered on the exit channel, and the deltas handed
to the change callback. -/
structure FetchOut where
  ok : Bool
  w : Watcher
  exits : List String
  deltas : List FolderChanges
deriving Repr

/-- `fetchInitial()`: full listing; every returned row is stored (no tag
check) and reported as Added; the callback fires only for a non-empty
entry list. -/
def fetchInitial (w : Watcher) (res : Except String ListFolderResult) :
    FetchOut :=
  match checkResult w res with
  | .stop w1 exits => ⟨false, w1, exits, []⟩
  | .proceed w1 r =>
      if 0 < r.entries.length then
        ⟨true, storeAll w1 r.entries, [],
          [{ added := r.entries.map FolderEntry.id, updated := [], removed := [] }]⟩
      else ⟨true, w1, [], []⟩

/-- The per-pass reconciliation state: the watcher, the pending-deletion
map `delm` (file id to vacated path, `""` for a reused slot), and the
delta being accumulated. -/
structure RecState where
  w : Watcher
  delm : List (String × String)
  changes : FolderChanges
deriving Repr

/-- One iteration of the `fetch` reconciliation loop, translated branch by
branch from the source. -/
def reconcileRow (s : RecState) (ent : FolderEntry) : RecState :=
  let prev := mapGet s.w.entriesByPath ent.pathLower
  if ent.tag = "deleted" then
    match prev with
    | some p => { s with delm := mapSet s.delm p.id ent.pathLower }
    | none => s
  else
    let s1 :=
      match prev with
      | some p =>
          if p.id ≠ ent.id then
            -- entry was removed and a different entry was added at the same path
            if (mapGet s.w.entriesById p.id).isSome then
              { s with delm := mapSet s.delm p.id ""
                       changes := { s.changes with
                         updated := s.changes.updated ++ [ent.id] } }
            else
              { s with changes := { s.changes with
                  added := s.changes.added ++ [ent.id] } }
          else
            -- Updated; the source re-tests `prevEntAtPath != nil` before
            -- `delete(delm, ent.Id)`, trivially true in this branch
            { s with delm := mapDel s.delm ent.id
                     changes := { s.changes with
                       updated := s.changes.updated ++ [ent.id] } }
      | none =>
          -- Added; the source guards `delete(delm, ent.Id)` with
          -- `prevEntAtPath != nil`, which is always false in this branch,
          -- so the delm cleanup never runs here
          { s with changes := { s.changes with
              added := s.changes.added ++ [ent.id] } }
    { s1 with w := storeEnt s1.w ent }

/-- One iteration of the deletion-resolution loop over `delm`: drop the id
from the id map and, for a recorded vacated path, drop that path slot. -/
def removeResolved (w : Watcher) (kv : String × String) : Watcher :=
  let w1 := { w with entriesById := mapDel w.entriesById kv.1 }
  if kv.2.length ≠ 0 then
    { w1 with entriesByPath := mapDel w1.entriesByPath kv.2 }
  else w1

/-- The trailing loop of `fetch`: resolve every pending deletion and fill
`changes.Removed` with the resolved ids. -/
def resolveDeletions (s : RecState) : Watcher × FolderChanges :=
  (s.delm.foldl removeResolved s.w,
   { s.changes with removed := s.delm.map Prod.fst })

/-- The incremental reconciliation core: apply a batch row by row against
the current store, then resolve the pending deletions. -/
def applyCont (w : Watcher) (entries : List FolderEntry) :
    Watcher × FolderChanges :=
  resolveDeletions
    (entries.foldl reconcileRow { w := w, delm := [], changes := ⟨[], [], []⟩ })

/-- The incremental arm of `fetch()`: after `checkResult`, an empty entry
list is a successful no-op; otherwise the batch is reconciled and the
callback fires only when some bucket is non-empty. -/
def fetchCont (w : Watcher) (res : Except String ListFolderResult) :
    FetchOut :=
  match checkResult w res with
  | .stop w1 exits => ⟨false, w1, exits, []⟩
  | .proceed w1 r =>
      if r.entries.length = 0 then ⟨true, w1, [], []⟩
      else
        let p := applyCont w1 r.entries
        if 0 < p.2.added.length ∨ 0 < p.2.updated.length ∨
           0 < p.2.removed.length then
          ⟨true, p.1, [], [p.2]⟩
        else ⟨true, p.1, [], []⟩

/-- `fetch()`: an empty cursor triggers the initial full listing, otherwise
the incremental listing is reconciled. -/
def fetch (w : Watcher) (res : Except String ListFolderResult) : FetchOut :=
  if w.cursor = "" then fetchInitial w res else fetchCont w res

/-- The listing request the next `fetch()` call issues. -/
def fetchRequest (w : Watcher) : Request :=
  if w.cursor = "" then
    Request.listFolder w.path (w.dirMode == DirMode.recursive)
  else Request.listFolderCont w.cursor

/-- Observable events of the long-poll driver: the request issued and the
`time.Sleep` the server-directed backoff forces. -/
inductive PollEvent where
  | request (cursor : String) (timeout : Nat)
  | sleep (seconds : Nat)
deriving DecidableEq, Repr

/-- Output of `waitForChanges`: the Go boolean result, the watcher, the
exit-channel deliveries and the ordered event trace. -/
structure PollOut where
  ok : Bool
  w : Watcher
  exits : List String
  events : List PollEvent
deriving DecidableEq, Repr

/-- `waitForChanges()` over an oracle of long-poll responses, one per loop
iteration: a transport error exits; then cancellation is checked; a
positive backoff forces a sleep before anything else happens; `changes`
sets `hasMore` and returns true, otherwise the loop re-polls.  An
exhausted oracle (the driver still waiting) yields `ok = false` with no
exit delivery. -/
def waitForChanges (w : Watcher) :
    List (Except String LongPollResult) → PollOut
  | [] => ⟨false, w, [], []⟩
  | res :: rest =>
      match res with
      | .error e => ⟨false, w, [e], [.request w.cursor 30]⟩
      | .ok r =>
          let c := checkCanceled w
          if c.1 then ⟨false, c.2, [errCanceled], [.request w.cursor 30]⟩
          else
            let evs :=
              if 0 < r.backoff then
                [PollEvent.request w.cursor 30, PollEvent.sleep r.backoff]
              else [PollEvent.request w.cursor 30]
            if r.changes then ⟨true, { c.2 with hasMore := true }, [], evs⟩
            else
              let o := waitForChanges c.2 rest
              ⟨o.ok, o.w, o.exits, evs ++ o.events⟩

/-- One oracle response for the run loop: a listing response for the
fetching phase or a long-poll response for the polling phase. -/
inductive RunResponse where
  | listing (res : Except String ListFolderResult)
  | poll (res : Except String LongPollResult)
deriving Repr

/-- Output of the run loop: final watcher, exit-channel deliveries, deltas
handed to the callback, and the requests issued, in order. -/
structure RunOut where
  w : Watcher
  exits : List String
  deltas : List FolderChanges
  requests : List Request
deriving Repr

/-- `Run()`: alternate the fetch loop (`phase = true`, while `hasMore`)
and the long-poll loop (`phase = false`), consuming one oracle response per
transport round trip; a false result from either driver returns.  An
exhausted or phase-mismatched oracle ends the trace with the loop still
running. -/
def runLoop : Watcher → Bool → List RunResponse → RunOut
  | w, _, [] => ⟨w, [], [], []⟩
  | w, true, RunResponse.listing res :: rest =>
      let req := fetchRequest w
      let out := fetch w res
      if out.ok then
        if out.w.hasMore then
          let o := runLoop out.w true rest
          ⟨o.w, out.exits ++ o.exits, out.deltas ++ o.deltas, req :: o.requests⟩
        else
          let o := runLoop out.w false rest
          ⟨o.w, out.exits ++ o.exits, out.deltas ++ o.deltas, req :: o.requests⟩
      else ⟨out.w, out.exits, out.deltas, [req]⟩
  | w, false, RunResponse.poll res :: rest =>
      let req := Request.longpoll w.cursor 30
      match res with
      | .error e => ⟨w, [e], [], [req]⟩
      | .ok r =>
          let c := checkCanceled w
          if c.1 then ⟨c.2, [errCanceled], [], [req]⟩
          else if r.changes then
            let o := runLoop { c.2 with hasMore := true } true rest
            ⟨o.w, o.exits, o.deltas, req :: o.requests⟩
          else
            let o := runLoop c.2 false rest
            ⟨o.w, o.exits, o.deltas, req :: o.requests⟩
  | w, _, _ :: _ => ⟨w, [], [], []⟩

/-- `Run(changecb)` starts in the fetching phase. -/
def run (w : Watcher) (oracle : List RunResponse) : RunOut :=
  runLoop w true oracle

/-! Concrete scenario inputs used by the claims below.  Every store state is
reached from a freshly constructed watcher by running actual passes. -/

/-- The watcher value `NewFolderWatcher` builds for a non-nil client:
zero-valued flags and cursor, empty maps, allocated exit channel. -/
def freshWatcher (c : Client) (path : String) (m : DirMode) : Watcher :=
  { hasMore := false, canceled := false, cancelch := 0, exitch := some []
    client := c, cursor := "", path := path, dirMode := m
    entriesById := [], entriesByPath := [] }

/-- A concrete client handle. -/
def tokClient : Client := ⟨"tok"⟩

/-- The watcher `NewFolderWatcher(&tokClient, "/d", DirModeShallow)` builds. -/
def wNew : Watcher := freshWatcher tokClient "/d" DirMode.shallow

/-- Content row: identity `id1` at path `/x`. -/
def entX : FolderEntry := ⟨"file", "x", "id1", "r1", "/x"⟩

/-- Content row: identity `id1` at path `/y` (id1 after a move). -/
def entY : FolderEntry := ⟨"file", "y", "id1", "r2", "/y"⟩

/-- Content row: identity `id2` at path `/y`. -/
def entB : FolderEntry := ⟨"file", "y", "id2", "r3", "/y"⟩

/-- Content row: identity `id2` at path `/x` (id2 displacing id1's slot). -/
def entMove : FolderEntry := ⟨"file", "x", "id2", "r4", "/x"⟩

/-- Tombstone row at path `/x` (deletion rows carry no identity). -/
def tombX : FolderEntry := ⟨"deleted", "x", "", "", "/x"⟩

/-- Tombstone row at path `/t`, with row data distinguishable in the store. -/
def tombT : FolderEntry := ⟨"deleted", "t", "idT", "", "/t"⟩

/-- The initial listing response `[content id1 at "/x"]`. -/
def rOne : ListFolderResult := ⟨[entX], "c1", false⟩

/-- Initial pass: store becomes `{id1 at "/x"}`, cursor `"c1"`. -/
def passOne : FetchOut := fetch wNew (Except.ok rOne)

/-- Incremental pass over `[tombstone "/x", content id1 at "/y"]` against the
store `{id1 at "/x"}` — the spec's coalescing scenario. -/
def passTwo : FetchOut :=
  fetch passOne.w (Except.ok ⟨[tombX, entY], "c2", false⟩)

/-- Store `{id1 at "/x", id2 at "/y"}` reached by one initial pass. -/
def wTwo : Watcher := (fetch wNew (Except.ok ⟨[entX, entB], "c1", false⟩)).w

/-- Incremental pass over `[content id2 at "/x"]` against
`{id1 at "/x", id2 at "/y"}` — the rename-with-displacement scenario. -/
def passMove : FetchOut := fetch wTwo (Except.ok ⟨[entMove], "c2", false⟩)

/-- Initial pass whose response contains a tombstone row. -/
def passInit : FetchOut := fetch wNew (Except.ok ⟨[tombT], "c1", false⟩)

/-- A watcher holding cursor `"c1"` with one buffered cancellation. -/
def wPend : Watcher := { wNew with cursor := "c1", cancelch := 1 }

/-- An incremental response with an empty entry list and a new cursor. -/
def rEmpty : ListFolderResult := ⟨[], "c2", true⟩

/-- A long-poll response: changes available after a backoff of 2. -/
def rPoll : LongPollResult := ⟨true, 2⟩

/-- No stored value is a tombstone row. -/
abbrev noTomb (m : List (String × FolderEntry)) : Prop :=
  ∀ kv ∈ m, ¬(kv.2.tag = "deleted")

/-! Helper lemmas. -/

theorem checkCanceled_clear (w : Watcher) (h1 : w.canceled = false)
    (h2 : w.cancelch = 0) : checkCanceled w = (false, w) := by
  simp [checkCanceled, h1, h2]

theorem checkCanceled_entriesById (w : Watcher) :
    (checkCanceled w).2.entriesById = w.entriesById := by
  unfold checkCanceled
  split
  · rfl
  · split <;> rfl

theorem checkCanceled_entriesByPath (w : Watcher) :
    (checkCanceled w).2.entriesByPath = w.entriesByPath := by
  unfold checkCanceled
  split
  · rfl
  · split <;> rfl

theorem storeAll_cursor (l : List FolderEntry) :
    ∀ w : Watcher, (storeAll w l).cursor = w.cursor := by
  induction l with
  | nil => intro w; rfl
  | cons e l ih => intro w; exact ih (storeEnt w e)

theorem storeAll_hasMore (l : List FolderEntry) :
    ∀ w : Watcher, (storeAll w l).hasMore = w.hasMore := by
  induction l with
  | nil => intro w; rfl
  | cons e l ih => intro w; exact ih (storeEnt w e)

theorem reconcileRow_cursor (s : RecState) (e : FolderEntry) :
    (reconcileRow s e).w.cursor = s.w.cursor := by
  unfold reconcileRow storeEnt
  dsimp only
  split
  · split <;> rfl
  · split <;> first | rfl | (split <;> first | rfl | (split <;> rfl))

theorem reconcileRow_hasMore (s : RecState) (e : FolderEntry) :
    (reconcileRow s e).w.hasMore = s.w.hasMore := by
  unfold reconcileRow storeEnt
  dsimp only
  split
  · split <;> rfl
  · split <;> first | rfl | (split <;> first | rfl | (split <;> rfl))

theorem foldl_reconcileRow_cursor (l : List FolderEntry) :
    ∀ s : RecState, (l.foldl reconcileRow s).w.cursor = s.w.cursor := by
  induction l with
  | nil => intro s; rfl
  | cons e l ih =>
      intro s
      rw [List.foldl_cons, ih (reconcileRow s e), reconcileRow_cursor]

theorem foldl_reconcileRow_hasMore (l : List FolderEntry) :
    ∀ s : RecState, (l.foldl reconcileRow s).w.hasMore = s.w.hasMore := by
  induction l with
  | nil => intro s; rfl
  | cons e l ih =>
      intro s
      rw [List.foldl_cons, ih (reconcileRow s e), reconcileRow_hasMore]

theorem removeResolved_cursor (w : Watcher) (kv : String × String) :
    (removeResolved w kv).cursor = w.cursor := by
  unfold removeResolved
  dsimp only
  split <;> rfl

theorem removeResolved_hasMore (w : Watcher) (kv : String × String) :
    (removeResolved w kv).hasMore = w.hasMore := by
  unfold removeResolved
  dsimp only
  split <;> rfl

theorem foldl_removeResolved_cursor (l : List (String × String)) :
    ∀ w : Watcher, (l.foldl removeResolved w).cursor = w.cursor := by
  induction l with
  | nil => intro w; rfl
  | cons kv l ih =>
      intro w
      rw [List.foldl_cons, ih (removeResolved w kv), removeResolved_cursor]

theorem foldl_removeResolved_hasMore (l : List (String × String)) :
    ∀ w : Watcher, (l.foldl removeResolved w).hasMore = w.hasMore := by
  induction l with
  | nil => intro w; rfl
  | cons kv l ih =>
      intro w
      rw [List.foldl_cons, ih (removeResolved w kv), removeResolved_hasMore]

theorem applyCont_cursor (w : Watcher) (l : List FolderEntry) :
    (applyCont w l).1.cursor = w.cursor := by
  unfold applyCont resolveDeletions
  dsimp only
  rw [foldl_removeResolved_cursor, foldl_reconcileRow_cursor]

theorem applyCont_hasMore (w : Watcher) (l : List FolderEntry) :
    (applyCont w l).1.hasMore = w.hasMore := by
  unfold applyCont resolveDeletions
  dsimp only
  rw [foldl_removeResolved_hasMore, foldl_reconcileRow_hasMore]

theorem fetch_error (w : Watcher) (e : String) :
    fetch w (Except.error e) = ⟨false, w, [e], []⟩ := by
  unfold fetch fetchInitial fetchCont checkResult
  split <;> rfl

theorem checkResult_ok_clear (w : Watcher) (r : ListFolderResult)
    (h1 : w.canceled = false) (h2 : w.cancelch = 0) :
    checkResult w (Except.ok r) =
      CheckOut.proceed { w with cursor := r.cursor, hasMore := r.hasMore } r := by
  simp [checkResult, checkCanceled_clear w h1 h2]

theorem checkResult_entriesById (w : Watcher)
    (res : Except String ListFolderResult) :
    (match checkResult w res with
     | CheckOut.proceed w1 _ => w1
     | CheckOut.stop w1 _ => w1).entriesById = w.entriesById := by
  unfold checkResult
  cases res with
  | error e => rfl
  | ok r =>
      dsimp only
      by_cases hcc : (checkCanceled w).1 = true
      · rw [if_pos hcc]
        exact checkCanceled_entriesById w
      · rw [if_neg hcc]
        exact checkCanceled_entriesById w

theorem checkResult_entriesByPath (w : Watcher)
    (res : Except String ListFolderResult) :
    (match checkResult w res with
     | CheckOut.proceed w1 _ => w1
     | CheckOut.stop w1 _ => w1).entriesByPath = w.entriesByPath := by
  unfold checkResult
  cases res with
  | error e => rfl
  | ok r =>
      dsimp only
      by_cases hcc : (checkCanceled w).1 = true
      · rw [if_pos hcc]
        exact checkCanceled_entriesByPath w
      · rw [if_neg hcc]
        exact checkCanceled_entriesByPath w

theorem noTomb_mapSet (k : String) (v : FolderEntry)
    (hv : ¬(v.tag = "deleted")) :
    ∀ m, noTomb m → noTomb (mapSet m k v) := by
  intro m
  induction m with
  | nil =>
      intro _ kv hkv
      simp only [mapSet, List.mem_singleton] at hkv
      subst hkv
      exact hv
  | cons hd tl ih =>
      intro hm kv hkv
      have hmtl : noTomb tl := fun kv h => hm kv (List.mem_cons_of_mem _ h)
      simp only [mapSet] at hkv
      split at hkv
      · rcases List.mem_cons.1 hkv with h | h
        · subst h; exact hv
        · exact hmtl kv h
      · rcases List.mem_cons.1 hkv with h | h
        · subst h; exact hm hd (List.mem_cons_self _ _)
        · exact ih hmtl kv h

theorem mem_of_mem_mapDel {α : Type} (k : String) :
    ∀ (m : List (String × α)) (kv : String × α), kv ∈ mapDel m k → kv ∈ m := by
  intro m
  induction m with
  | nil => intro kv h; simp [mapDel] at h
  | cons hd tl ih =>
      intro kv h
      simp only [mapDel] at h
      split at h
      · exact List.mem_cons_of_mem _ h
      · rcases List.mem_cons.1 h with h | h
        · subst h; exact List.mem_cons_self _ _
        · exact List.mem_cons_of_mem _ (ih kv h)

theorem noTomb_mapDel (k : String) (m : List (String × FolderEntry))
    (hm : noTomb m) : noTomb (mapDel m k) :=
  fun kv h => hm kv (mem_of_mem_mapDel k m kv h)

theorem reconcileRow_noTomb (s : RecState) (e : FolderEntry)
    (h1 : noTomb s.w.entriesById) (h2 : noTomb s.w.entriesByPath) :
    noTomb (reconcileRow s e).w.entriesById ∧
      noTomb (reconcileRow s e).w.entriesByPath := by
  unfold reconcileRow storeEnt
  dsimp only
  split
  · split <;> exact ⟨h1, h2⟩
  case isFalse ht =>
    have hins : ∀ m, noTomb m → ∀ k, noTomb (mapSet m k e) := fun m hm k =>
      noTomb_mapSet k e ht m hm
    split
    · split
      · split
        · exact ⟨hins _ h1 _, hins _ h2 _⟩
        · exact ⟨hins _ h1 _, hins _ h2 _⟩
      · exact ⟨hins _ h1 _, hins _ h2 _⟩
    · exact ⟨hins _ h1 _, hins _ h2 _⟩

theorem foldl_reconcileRow_noTomb (l : List FolderEntry) :
    ∀ s : RecState, noTomb s.w.entriesById → noTomb s.w.entriesByPath →
      noTomb ((l.foldl reconcileRow s).w.entriesById) ∧
        noTomb ((l.foldl reconcileRow s).w.entriesByPath) := by
  induction l with
  | nil => intro s h1 h2; exact ⟨h1, h2⟩
  | cons e l ih =>
      intro s h1 h2
      have h := reconcileRow_noTomb s e h1 h2
      exact ih (reconcileRow s e) h.1 h.2

theorem removeResolved_noTomb (w : Watcher) (kv : String × String)
    (h1 : noTomb w.entriesById) (h2 : noTomb w.entriesByPath) :
    noTomb (removeResolved w kv).entriesById ∧
      noTomb (removeResolved w kv).entriesByPath := by
  unfold removeResolved
  dsimp only
  split
  · exact ⟨noTomb_mapDel _ _ h1, noTomb_mapDel _ _ h2⟩
  · exact ⟨noTomb_mapDel _ _ h1, h2⟩

theorem foldl_removeResolved_noTomb (l : List (String × String)) :
    ∀ w : Watcher, noTomb w.entriesById → noTomb w.entriesByPath →
      noTomb ((l.foldl removeResolved w).entriesById) ∧
        noTomb ((l.foldl removeResolved w).entriesByPath) := by
  induction l with
  | nil => intro w h1 h2; exact ⟨h1, h2⟩
  | cons kv l ih =>
      intro w h1 h2
      have h := removeResolved_noTomb w kv h1 h2
      exact ih (removeResolved w kv) h.1 h.2

theorem applyCont_noTomb (w : Watcher) (l : List FolderEntry)
    (h1 : noTomb w.entriesById) (h2 : noTomb w.entriesByPath) :
    noTomb (applyCont w l).1.entriesById ∧
      noTomb (applyCont w l).1.entriesByPath := by
  unfold applyCont resolveDeletions
  dsimp only
  have h := foldl_reconcileRow_noTomb l ⟨w, [], ⟨[], [], []⟩⟩ h1 h2
  exact foldl_removeResolved_noTomb _ _ h.1 h.2

/-! The claims. -/

/-- Claim C1 fails on the code: against the store `{id1 at "/x"}`, the batch
`[tombstone "/x", content id1 at "/y"]` does not yield `{Updated: [id1]}`.
The `delete(delm, ent.Id)` in the added branch is guarded by
`prevEntAtPath != nil`, which is always false there, so the pending deletion
of id1 is never retracted: the pass emits `Added = [id1]` and
`Removed = [id1]`, removes id1 from `EntriesById`, and leaves the new entry
stranded under `EntriesByPath["/y"]`. -/
theorem passTwo_no_coalescing :
    passTwo.deltas = [⟨["id1"], [], ["id1"]⟩] ∧
    mapGet passTwo.w.entriesById "id1" = none ∧
    mapGet passTwo.w.entriesByPath "/y" = some entY := by
  decide

/-- Claim C2 fails on the code: starting from the empty store, the two
passes of the coalescing scenario leave `EntriesByPath["/y"]` holding the
entry whose identity is `id1` while `EntriesById` has no binding for `id1`
at all — an entry exists in one map but not the other. -/
theorem passTwo_store_inconsistent :
    mapGet passTwo.w.entriesByPath "/y" = some entY ∧
    entY.id = "id1" ∧
    mapGet passTwo.w.entriesById entY.id = none := by
  decide

/-- Claim C3, counterexample to the claim as stated: after reconciling
`[content id2 at "/x"]` against `{id1 at "/x", id2 at "/y"}`, the `"/y"`
path slot is not vacated — it still holds id2's stale pre-batch entry. -/
theorem passMove_y_not_vacated :
    ¬(mapGet passMove.w.entriesByPath "/y" = none) := by
  decide

/-- Claim C3 as amended: the delta is exactly
`{Updated: [id2], Removed: [id1]}` and `EntriesById` holds exactly the new
id2 entry at `"/x"`, with id1 gone from both maps; but `EntriesByPath`
retains the stale pre-batch id2 entry under `"/y"` in addition to the new
entry under `"/x"`. -/
theorem passMove_rename_displacement :
    passMove.deltas = [⟨[], ["id2"], ["id1"]⟩] ∧
    passMove.w.entriesById = [("id2", entMove)] ∧
    mapGet passMove.w.entriesByPath "/x" = some entMove ∧
    mapGet passMove.w.entriesById "id1" = none ∧
    mapGet passMove.w.entriesByPath "/y" = some entB := by
  decide

/-- Claim C4 fails on the code: the delta emitted by the coalescing
scenario carries `id1` in both its Added and its Removed bucket, so the
three buckets of one emitted delta are not pairwise disjoint. -/
theorem passTwo_delta_not_disjoint :
    ∃ d ∈ passTwo.deltas, "id1" ∈ d.added ∧ "id1" ∈ d.removed := by
  refine ⟨⟨["id1"], [], ["id1"]⟩, by decide, by decide⟩

/-- Claim C5, counterexample to the claim as stated: a successful listing
response that returns while a cancellation is pending is discarded —
`checkResult` checks the cancel channel before storing the cursor, so the
stored cursor stays `"c1"` although the response carried `"c2"`, and the
watcher exits with the cancellation sentinel. -/
theorem canceled_response_discards_cursor :
    rEmpty.cursor = "c2" ∧
    (fetch wPend (Except.ok rEmpty)).w.cursor = "c1" ∧
    (fetch wPend (Except.ok rEmpty)).exits = [errCanceled] := by
  decide

/-- Claim C5 as amended: after every successful listing response processed
with no cancellation pending, the stored cursor and has-more flag equal the
response's — even when the entry list is empty, since nothing below depends
on `r.entries` — and the next incremental listing request carries exactly
the stored cursor. -/
theorem fetch_cursor_continuity (w : Watcher) (r : ListFolderResult)
    (h1 : w.canceled = false) (h2 : w.cancelch = 0) :
    (fetch w (Except.ok r)).w.cursor = r.cursor ∧
    (fetch w (Except.ok r)).w.hasMore = r.hasMore ∧
    (¬(r.cursor = "") →
      fetchRequest (fetch w (Except.ok r)).w =
        Request.listFolderCont r.cursor) := by
  have hcur : (fetch w (Except.ok r)).w.cursor = r.cursor := by
    unfold fetch
    split
    · unfold fetchInitial
      rw [checkResult_ok_clear w r h1 h2]
      dsimp only
      split
      · exact storeAll_cursor _ _
      · rfl
    · unfold fetchCont
      rw [checkResult_ok_clear w r h1 h2]
      dsimp only
      split
      · rfl
      · split
        · exact applyCont_cursor _ _
        · exact applyCont_cursor _ _
  have hhm : (fetch w (Except.ok r)).w.hasMore = r.hasMore := by
    unfold fetch
    split
    · unfold fetchInitial
      rw [checkResult_ok_clear w r h1 h2]
      dsimp only
      split
      · exact storeAll_hasMore _ _
      · rfl
    · unfold fetchCont
      rw [checkResult_ok_clear w r h1 h2]
      dsimp only
      split
      · rfl
      · split
        · exact applyCont_hasMore _ _
        · exact applyCont_hasMore _ _
  refine ⟨hcur, hhm, fun hne => ?_⟩
  unfold fetchRequest
  rw [hcur]
  simp [hne]

/-- Witness for the amended claim C5 at a concrete input. -/
theorem fetch_cursor_continuity_witness :
    (wNew.canceled = false ∧ wNew.cancelch = 0) ∧
    ((fetch wNew (Except.ok rOne)).w.cursor = rOne.cursor ∧
     (fetch wNew (Except.ok rOne)).w.hasMore = rOne.hasMore ∧
     (¬(rOne.cursor = "") →
       fetchRequest (fetch wNew (Except.ok rOne)).w =
         Request.listFolderCont rOne.cursor)) :=
  ⟨⟨rfl, rfl⟩, fetch_cursor_continuity wNew rOne rfl rfl⟩

/-- Claim C6, counterexample to the claim as stated: the initial listing
pass stores rows without inspecting their tag, so a tombstone row in an
initial listing response is inserted into both maps. -/
theorem initial_listing_stores_tombstone :
    tombT.tag = "deleted" ∧
    mapGet passInit.w.entriesById "idT" = some tombT ∧
    mapGet passInit.w.entriesByPath "/t" = some tombT := by
  decide

/-- Claim C6 as amended: during incremental reconciliation a tombstone row
is never inserted into the Entry Store — if neither map holds a tombstone
before the pass, neither holds one after; tombstone rows only drive
removals.  (Only `fetchInitial` stores rows without a tag check.) -/
theorem fetchCont_no_tombstone_stored (w : Watcher)
    (res : Except String ListFolderResult)
    (h1 : noTomb w.entriesById) (h2 : noTomb w.entriesByPath) :
    noTomb (fetchCont w res).w.entriesById ∧
      noTomb (fetchCont w res).w.entriesByPath := by
  have hid := checkResult_entriesById w res
  have hpa := checkResult_entriesByPath w res
  unfold fetchCont
  rcases hcr : checkResult w res with ⟨w1, r1⟩ | ⟨w1, ex⟩ <;>
    rw [hcr] at hid hpa <;> dsimp only at hid hpa ⊢
  · have h1w : noTomb w1.entriesById := by rw [hid]; exact h1
    have h2w : noTomb w1.entriesByPath := by rw [hpa]; exact h2
    split
    · exact ⟨h1w, h2w⟩
    · split
      · exact applyCont_noTomb _ _ h1w h2w
      · exact applyCont_noTomb _ _ h1w h2w
  · have h1w : noTomb w1.entriesById := by rw [hid]; exact h1
    have h2w : noTomb w1.entriesByPath := by rw [hpa]; exact h2
    exact ⟨h1w, h2w⟩

/-- Witness for the amended claim C6 at a concrete input. -/
theorem fetchCont_no_tombstone_stored_witness :
    (noTomb wNew.entriesById ∧ noTomb wNew.entriesByPath) ∧
    (noTomb (fetchCont wNew (Except.ok ⟨[tombX, entY], "c9", false⟩)).w.entriesById ∧
     noTomb (fetchCont wNew (Except.ok ⟨[tombX, entY], "c9", false⟩)).w.entriesByPath) :=
  ⟨⟨by decide, by decide⟩,
   fetchCont_no_tombstone_stored wNew (Except.ok ⟨[tombX, entY], "c9", false⟩)
     (by decide) (by decide)⟩

/-- Claim C7: a transport error from a listing request (fetching phase) or
a long-poll request (polling phase) is delivered verbatim as the single
exit-channel message, the run loop returns at once — whatever responses the
oracle still holds, no further request is issued — and no delta is emitted
for the failed pass. -/
theorem run_transport_error_terminal (w : Watcher) (e : String)
    (rest : List RunResponse) :
    runLoop w true (RunResponse.listing (Except.error e) :: rest) =
      ⟨w, [e], [], [fetchRequest w]⟩ ∧
    runLoop w false (RunResponse.poll (Except.error e) :: rest) =
      ⟨w, [e], [], [Request.longpoll w.cursor 30]⟩ := by
  constructor
  · simp only [runLoop, fetch_error]
    rw [if_neg (by decide : ¬(false = true))]
  · rfl

/-- Claim C8: a long-poll response with positive backoff forces a sleep of
that many seconds, placed after the request and before anything further
happens; after the backoff, `changes = true` sets `hasMore` and returns
control (true), while `changes = false` continues with the next long-poll
iteration. -/
theorem waitForChanges_backoff (w : Watcher) (r : LongPollResult)
    (rest : List (Except String LongPollResult))
    (h1 : w.canceled = false) (h2 : w.cancelch = 0) (hb : 0 < r.backoff) :
    waitForChanges w (Except.ok r :: rest) =
      (if r.changes then
        (⟨true, { w with hasMore := true }, [],
          [PollEvent.request w.cursor 30, PollEvent.sleep r.backoff]⟩ : PollOut)
      else
        ⟨(waitForChanges w rest).ok, (waitForChanges w rest).w,
          (waitForChanges w rest).exits,
          [PollEvent.request w.cursor 30, PollEvent.sleep r.backoff] ++
            (waitForChanges w rest).events⟩) := by
  have hc := checkCanceled_clear w h1 h2
  generalize hrest : waitForChanges w rest = o
  simp only [waitForChanges, hc]
  rw [if_neg (by decide : ¬(false = true)), if_pos hb, hrest]

/-- Witness for claim C8 at a concrete input. -/
theorem waitForChanges_backoff_witness :
    (wNew.canceled = false ∧ wNew.cancelch = 0 ∧ 0 < rPoll.backoff) ∧
    waitForChanges wNew (Except.ok rPoll :: []) =
      (if rPoll.changes then
        (⟨true, { wNew with hasMore := true }, [],
          [PollEvent.request wNew.cursor 30, PollEvent.sleep rPoll.backoff]⟩ : PollOut)
      else
        ⟨(waitForChanges wNew []).ok, (waitForChanges wNew []).w,
          (waitForChanges wNew []).exits,
          [PollEvent.request wNew.cursor 30, PollEvent.sleep rPoll.backoff] ++
            (waitForChanges wNew []).events⟩) :=
  ⟨⟨rfl, rfl, by decide⟩, waitForChanges_backoff wNew rPoll [] rfl rfl (by decide)⟩

/-- Claim C9 fails on the code: `Cancel()` is a plain send on the
capacity-1 cancel channel.  The first call completes at once, but a second
call with no intervening receive — for instance after the run loop already
exited on a transport error, when nothing will ever receive — finds the
buffer full and blocks forever (`none`). -/
theorem cancel_second_call_blocks :
    (cancel wNew).isSome = true ∧ Option.bind (cancel wNew) cancel = none := by
  decide

/-- Claim C10: `NewFolderWatcher` returns nil exactly for a nil client;
for a non-nil client it returns a watcher with empty cursor (so the first
fetch issues the initial full listing request), empty entry maps, and an
allocated exit channel. -/
theorem newFolderWatcher_spec (p : String) (m : DirMode) (c : Client) :
    newFolderWatcher none p m = none ∧
    newFolderWatcher (some c) p m = some (freshWatcher c p m) ∧
    (freshWatcher c p m).cursor = "" ∧
    (freshWatcher c p m).entriesById = [] ∧
    (freshWatcher c p m).entriesByPath = [] ∧
    (freshWatcher c p m).exitch = some [] ∧
    fetchRequest (freshWatcher c p m) =
      Request.listFolder p (m == DirMode.recursive) :=
  ⟨rfl, rfl, rfl, rfl, rfl, rfl, rfl⟩

end Dbxapi
